import Mathlib

/-!
Verification of the Passkey_Client core against its specification.

The development shallowly embeds the repository's codec
(`src/services/encoding.ts`), the WebAuthn option adapter and error
translator (`webauthn` service module), and the mock relying party
(`src/services/mockServer.ts`).  Byte buffers are `List Nat` with every
element `< 256`; JavaScript `Map`s are association lists with
insert-or-replace semantics; timestamps are `Int` (milliseconds);
fallible operations return `Option`.  The platform primitives `btoa` and
`atob` are modelled after the standard (forgiving) base64 algorithm the
browsers implement.
-/

/-- The standard base64 alphabet, index 0–63. -/
def b64Alphabet : List Char :=
  ['A','B','C','D','E','F','G','H','I','J','K','L','M',
   'N','O','P','Q','R','S','T','U','V','W','X','Y','Z',
   'a','b','c','d','e','f','g','h','i','j','k','l','m',
   'n','o','p','q','r','s','t','u','v','w','x','y','z',
   '0','1','2','3','4','5','6','7','8','9','+','/']

/-- Character for a sextet value (callers only use values `< 64`). -/
def b64Char (n : Nat) : Char := b64Alphabet.getD n 'A'

/-- Sextet value of an alphabet character; `none` off the alphabet. -/
def b64Idx (c : Char) : Option Nat := b64Alphabet.findIdx? (fun a => a == c)

/-- ASCII whitespace, as removed by forgiving-base64 decoding. -/
def isB64Ws (c : Char) : Bool :=
  c == '\t' || c == '\n' || c == Char.ofNat 12 || c == '\r' || c == ' '

/-- Model of `btoa` on a latin-1 string given as its byte values:
standard base64 with `=` padding, three input bytes per four characters. -/
def btoaChars : List Nat → List Char
  | [] => []
  | [x] => [b64Char (x / 4), b64Char (x % 4 * 16), '=', '=']
  | [x, y] => [b64Char (x / 4), b64Char (x % 4 * 16 + y / 16), b64Char (y % 16 * 4), '=']
  | x :: y :: z :: rest =>
      b64Char (x / 4) :: b64Char (x % 4 * 16 + y / 16) ::
      b64Char (y % 16 * 4 + z / 64) :: b64Char (z % 64) :: btoaChars rest

/-- Sextet values back to bytes; a trailing group of two or three
characters contributes one or two bytes, leftover bits discarded
(forgiving-base64).  The single-leftover case is unreachable after the
length check in `atobChars`. -/
def quadsToBytes : List Nat → List Nat
  | [] => []
  | [_] => []
  | [a, b] => [a * 4 + b / 16]
  | [a, b, c] => [a * 4 + b / 16, b % 16 * 16 + c / 4]
  | a :: b :: c :: d :: rest =>
      (a * 4 + b / 16) :: (b % 16 * 16 + c / 4) :: (c % 4 * 64 + d) :: quadsToBytes rest

/-- Map characters to sextet values, failing on any non-alphabet
character (this is where a stray `=` or other junk is rejected). -/
def mapB64 : List Char → Option (List Nat)
  | [] => some []
  | c :: rest =>
      match b64Idx c, mapB64 rest with
      | some v, some vs => some (v :: vs)
      | _, _ => none

/-- Remove up to two trailing `=` characters, only when the length is a
multiple of four (forgiving-base64 step 2). -/
def stripPad (l : List Char) : List Char :=
  if l.length % 4 = 0 then
    if l.getLast? = some '=' then
      if l.dropLast.getLast? = some '=' then l.dropLast.dropLast else l.dropLast
    else l
  else l

/-- Model of `atob`: remove ASCII whitespace, reject length ≡ 1 (mod 4),
strip permitted padding, reject non-alphabet characters, decode. -/
def atobChars (s : List Char) : Option (List Nat) :=
  if (s.filter (fun c => !isB64Ws c)).length % 4 = 1 then none
  else
    match mapB64 (stripPad (s.filter (fun c => !isB64Ws c))) with
    | some vals => some (quadsToBytes vals)
    | none => none

/-- The decoder's character mapping: `-` ↦ `+`, `_` ↦ `/`. -/
def urlToStdChar (c : Char) : Char :=
  if c = '-' then '+' else if c = '_' then '/' else c

/-- The encoder's character mapping: `+` ↦ `-`, `/` ↦ `_`. -/
def stdToUrlChar (c : Char) : Char :=
  if c = '+' then '-' else if c = '/' then '_' else c

/-- `arrayBufferToBase64Url` (src/services/encoding.ts): `btoa`, then
replace `+`/`/` by `-`/`_` and strip all `=`. -/
def arrayBufferToBase64Url (b : List Nat) : String :=
  ⟨((btoaChars b).map stdToUrlChar).filter (fun c => c != '=')⟩

/-- `base64UrlToArrayBuffer` (src/services/encoding.ts): map `-`/`_`
back to `+`/`/`, re-pad to a multiple of four with `=`, then `atob`. -/
def base64UrlToArrayBuffer (s : String) : Option (List Nat) :=
  atobChars (s.data.map urlToStdChar
    ++ List.replicate ((4 - (s.data.map urlToStdChar).length % 4) % 4) '=')

/-- Proof-only view: the non-padding characters `btoa` produces. -/
def b64Body : List Nat → List Char
  | [] => []
  | [x] => [b64Char (x / 4), b64Char (x % 4 * 16)]
  | [x, y] => [b64Char (x / 4), b64Char (x % 4 * 16 + y / 16), b64Char (y % 16 * 4)]
  | x :: y :: z :: rest =>
      b64Char (x / 4) :: b64Char (x % 4 * 16 + y / 16) ::
      b64Char (y % 16 * 4 + z / 64) :: b64Char (z % 64) :: b64Body rest

/-- Proof-only view: the padding characters `btoa` appends. -/
def padOf : List Nat → List Char
  | [] => []
  | [_] => ['=', '=']
  | [_, _] => ['=']
  | _ :: _ :: _ :: rest => padOf rest

/-- Proof-only view: the sextet values of `b64Body`. -/
def sextets : List Nat → List Nat
  | [] => []
  | [x] => [x / 4, x % 4 * 16]
  | [x, y] => [x / 4, x % 4 * 16 + y / 16, y % 16 * 4]
  | x :: y :: z :: rest =>
      (x / 4) :: (x % 4 * 16 + y / 16) :: (y % 16 * 4 + z / 64) :: (z % 64) :: sextets rest

/-- Bundle of character-level facts about the alphabet, by evaluation. -/
theorem b64Char_spec : ∀ i : Fin 64,
    b64Idx (b64Char i.val) = some i.val
    ∧ isB64Ws (b64Char i.val) = false
    ∧ (b64Char i.val == '=') = false
    ∧ urlToStdChar (stdToUrlChar (b64Char i.val)) = b64Char i.val
    ∧ (stdToUrlChar (b64Char i.val) != '=') = true := by
  decide

/-- Alphabet character of a sextet decodes back to its value. -/
theorem b64Idx_b64Char {n : Nat} (h : n < 64) : b64Idx (b64Char n) = some n :=
  (b64Char_spec ⟨n, h⟩).1

/-- Alphabet characters are not whitespace. -/
theorem b64Char_not_ws {n : Nat} (h : n < 64) : (!isB64Ws (b64Char n)) = true := by
  rw [(b64Char_spec ⟨n, h⟩).2.1]; rfl

/-- Alphabet characters are not the padding character. -/
theorem b64Char_ne_pad {n : Nat} (h : n < 64) : (b64Char n == '=') = false :=
  (b64Char_spec ⟨n, h⟩).2.2.1

/-- The URL-safe substitution is undone by the decoder's substitution. -/
theorem urlStd_char_roundtrip {n : Nat} (h : n < 64) :
    urlToStdChar (stdToUrlChar (b64Char n)) = b64Char n :=
  (b64Char_spec ⟨n, h⟩).2.2.2.1

/-- The URL-safe substitution never produces the padding character. -/
theorem stdToUrl_ne_pad {n : Nat} (h : n < 64) :
    (stdToUrlChar (b64Char n) != '=') = true :=
  (b64Char_spec ⟨n, h⟩).2.2.2.2

/-- A list of non-`=` characters does not end in `=`. -/
theorem getLast?_ne_pad {bd : List Char} (hbd : ∀ c ∈ bd, (c == '=') = false) :
    ¬ bd.getLast? = some '=' := by
  rcases List.eq_nil_or_concat bd with h | ⟨L, a, h⟩
  · subst h; simp
  · subst h
    rw [List.concat_eq_append, List.getLast?_concat]
    intro hc
    have ha := hbd a (by simp [List.concat_eq_append])
    rw [Option.some.injEq] at hc
    subst hc
    simp at ha

/-- `stripPad` removes exactly the block of at most two trailing `=`. -/
theorem stripPad_body_pad {bd pd : List Char} (hbd : ∀ c ∈ bd, (c == '=') = false)
    (hpd : pd = [] ∨ pd = ['='] ∨ pd = ['=', '='])
    (hlen : (bd ++ pd).length % 4 = 0) :
    stripPad (bd ++ pd) = bd := by
  unfold stripPad
  rw [if_pos hlen]
  rcases hpd with h | h | h <;> subst h
  · rw [List.append_nil, if_neg (getLast?_ne_pad hbd)]
  · rw [show bd ++ ['='] = bd.concat '=' from (List.concat_eq_append bd '=').symm]
    rw [List.concat_eq_append, List.getLast?_concat, if_pos rfl, List.dropLast_concat,
      if_neg (getLast?_ne_pad hbd)]
  · rw [show bd ++ ['=', '='] = (bd ++ ['=']) ++ ['='] from by simp]
    rw [List.getLast?_concat, if_pos rfl, List.dropLast_concat, List.getLast?_concat,
      if_pos rfl, List.dropLast_concat]

/-- The padding character survives the whitespace filter. -/
theorem pad_not_ws : (!isB64Ws '=') = true := by decide

/-- `btoa` output is free of whitespace. -/
theorem btoaChars_filter_ws (b : List Nat) (h : ∀ x ∈ b, x < 256) :
    (btoaChars b).filter (fun c => !isB64Ws c) = btoaChars b := by
  induction b using btoaChars.induct with
  | case1 => rfl
  | case2 x =>
      have hx : x < 256 := h x (by simp)
      simp only [btoaChars, List.filter_cons, b64Char_not_ws (show x / 4 < 64 by omega),
        b64Char_not_ws (show x % 4 * 16 < 64 by omega), pad_not_ws, if_true,
        List.filter_nil]
  | case3 x y =>
      have hx : x < 256 := h x (by simp)
      have hy : y < 256 := h y (by simp)
      simp only [btoaChars, List.filter_cons, b64Char_not_ws (show x / 4 < 64 by omega),
        b64Char_not_ws (show x % 4 * 16 + y / 16 < 64 by omega),
        b64Char_not_ws (show y % 16 * 4 < 64 by omega), pad_not_ws, if_true,
        List.filter_nil]
  | case4 x y z rest ih =>
      have hx : x < 256 := h x (by simp)
      have hy : y < 256 := h y (by simp)
      have hz : z < 256 := h z (by simp)
      have hr : ∀ w ∈ rest, w < 256 := fun w hw => h w (by simp [hw])
      simp only [btoaChars, List.filter_cons, b64Char_not_ws (show x / 4 < 64 by omega),
        b64Char_not_ws (show x % 4 * 16 + y / 16 < 64 by omega),
        b64Char_not_ws (show y % 16 * 4 + z / 64 < 64 by omega),
        b64Char_not_ws (show z % 64 < 64 by omega), if_true]
      rw [ih hr]

/-- `btoa` output length is a multiple of four. -/
theorem btoaChars_length (b : List Nat) : (btoaChars b).length % 4 = 0 := by
  induction b using btoaChars.induct with
  | case1 => rfl
  | case2 x => simp [btoaChars]
  | case3 x y => simp [btoaChars]
  | case4 x y z rest ih => simp [btoaChars]; omega

/-- `btoa` output splits into its body and its padding. -/
theorem btoaChars_split (b : List Nat) : btoaChars b = b64Body b ++ padOf b := by
  induction b using btoaChars.induct with
  | case1 => rfl
  | case2 x => rfl
  | case3 x y => rfl
  | case4 x y z rest ih => simp [btoaChars, b64Body, padOf, ih]

/-- The body of `btoa` output contains no padding character. -/
theorem b64Body_ne_pad (b : List Nat) (h : ∀ x ∈ b, x < 256) :
    ∀ c ∈ b64Body b, (c == '=') = false := by
  induction b using btoaChars.induct with
  | case1 => intro c hc; simp [b64Body] at hc
  | case2 x =>
      have hx : x < 256 := h x (by simp)
      intro c hc
      simp [b64Body] at hc
      rcases hc with rfl | rfl
      · exact b64Char_ne_pad (show x / 4 < 64 by omega)
      · exact b64Char_ne_pad (show x % 4 * 16 < 64 by omega)
  | case3 x y =>
      have hx : x < 256 := h x (by simp)
      have hy : y < 256 := h y (by simp)
      intro c hc
      simp [b64Body] at hc
      rcases hc with rfl | rfl | rfl
      · exact b64Char_ne_pad (show x / 4 < 64 by omega)
      · exact b64Char_ne_pad (show x % 4 * 16 + y / 16 < 64 by omega)
      · exact b64Char_ne_pad (show y % 16 * 4 < 64 by omega)
  | case4 x y z rest ih =>
      have hx : x < 256 := h x (by simp)
      have hy : y < 256 := h y (by simp)
      have hz : z < 256 := h z (by simp)
      have hr : ∀ w ∈ rest, w < 256 := fun w hw => h w (by simp [hw])
      intro c hc
      simp [b64Body] at hc
      rcases hc with rfl | rfl | rfl | rfl | hc
      · exact b64Char_ne_pad (show x / 4 < 64 by omega)
      · exact b64Char_ne_pad (show x % 4 * 16 + y / 16 < 64 by omega)
      · exact b64Char_ne_pad (show y % 16 * 4 + z / 64 < 64 by omega)
      · exact b64Char_ne_pad (show z % 64 < 64 by omega)
      · exact ih hr c hc

/-- `btoa` appends zero, one or two padding characters. -/
theorem padOf_cases (b : List Nat) :
    padOf b = [] ∨ padOf b = ['='] ∨ padOf b = ['=', '='] := by
  induction b using btoaChars.induct with
  | case1 => exact Or.inl rfl
  | case2 x => exact Or.inr (Or.inr rfl)
  | case3 x y => exact Or.inr (Or.inl rfl)
  | case4 x y z rest ih => simpa [padOf] using ih

/-- Mapping the body back to sextet values succeeds. -/
theorem mapB64_b64Body (b : List Nat) (h : ∀ x ∈ b, x < 256) :
    mapB64 (b64Body b) = some (sextets b) := by
  induction b using btoaChars.induct with
  | case1 => rfl
  | case2 x =>
      have hx : x < 256 := h x (by simp)
      simp [b64Body, mapB64, sextets, b64Idx_b64Char (show x / 4 < 64 by omega),
        b64Idx_b64Char (show x % 4 * 16 < 64 by omega)]
  | case3 x y =>
      have hx : x < 256 := h x (by simp)
      have hy : y < 256 := h y (by simp)
      simp [b64Body, mapB64, sextets, b64Idx_b64Char (show x / 4 < 64 by omega),
        b64Idx_b64Char (show x % 4 * 16 + y / 16 < 64 by omega),
        b64Idx_b64Char (show y % 16 * 4 < 64 by omega)]
  | case4 x y z rest ih =>
      have hx : x < 256 := h x (by simp)
      have hy : y < 256 := h y (by simp)
      have hz : z < 256 := h z (by simp)
      have hr : ∀ w ∈ rest, w < 256 := fun w hw => h w (by simp [hw])
      simp [b64Body, mapB64, sextets, b64Idx_b64Char (show x / 4 < 64 by omega),
        b64Idx_b64Char (show x % 4 * 16 + y / 16 < 64 by omega),
        b64Idx_b64Char (show y % 16 * 4 + z / 64 < 64 by omega),
        b64Idx_b64Char (show z % 64 < 64 by omega), ih hr]

/-- Decoding the sextet values restores the original bytes. -/
theorem quadsToBytes_sextets (b : List Nat) (h : ∀ x ∈ b, x < 256) :
    quadsToBytes (sextets b) = b := by
  induction b using btoaChars.induct with
  | case1 => rfl
  | case2 x =>
      have hx : x < 256 := h x (by simp)
      simp [sextets, quadsToBytes]
      omega
  | case3 x y =>
      have hx : x < 256 := h x (by simp)
      have hy : y < 256 := h y (by simp)
      simp [sextets, quadsToBytes]
      omega
  | case4 x y z rest ih =>
      have hx : x < 256 := h x (by simp)
      have hy : y < 256 := h y (by simp)
      have hz : z < 256 := h z (by simp)
      have hr : ∀ w ∈ rest, w < 256 := fun w hw => h w (by simp [hw])
      simp [sextets, quadsToBytes, ih hr]
      omega

/-- `atob` inverts `btoa` on byte inputs. -/
theorem atobChars_btoaChars (b : List Nat) (h : ∀ x ∈ b, x < 256) :
    atobChars (btoaChars b) = some b := by
  unfold atobChars
  rw [btoaChars_filter_ws b h]
  rw [if_neg (by have := btoaChars_length b; omega)]
  rw [btoaChars_split b,
    stripPad_body_pad (b64Body_ne_pad b h) (padOf_cases b)
      (by rw [← btoaChars_split b]; exact btoaChars_length b),
    mapB64_b64Body b h]
  simp [quadsToBytes_sextets b h]

/-- The mapped padding character is still dropped by the encoder. -/
theorem pad_map_filter : (stdToUrlChar '=' != '=') = false := by decide

/-- The encoder's `=`-stripping leaves exactly the mapped body. -/
theorem btoaChars_map_filter (b : List Nat) (h : ∀ x ∈ b, x < 256) :
    ((btoaChars b).map stdToUrlChar).filter (fun c => c != '=')
      = (b64Body b).map stdToUrlChar := by
  induction b using btoaChars.induct with
  | case1 => rfl
  | case2 x =>
      have hx : x < 256 := h x (by simp)
      simp [btoaChars, b64Body, List.filter_cons, pad_map_filter,
        stdToUrl_ne_pad (show x / 4 < 64 by omega),
        stdToUrl_ne_pad (show x % 4 * 16 < 64 by omega)]
  | case3 x y =>
      have hx : x < 256 := h x (by simp)
      have hy : y < 256 := h y (by simp)
      simp [btoaChars, b64Body, List.filter_cons, pad_map_filter,
        stdToUrl_ne_pad (show x / 4 < 64 by omega),
        stdToUrl_ne_pad (show x % 4 * 16 + y / 16 < 64 by omega),
        stdToUrl_ne_pad (show y % 16 * 4 < 64 by omega)]
  | case4 x y z rest ih =>
      have hx : x < 256 := h x (by simp)
      have hy : y < 256 := h y (by simp)
      have hz : z < 256 := h z (by simp)
      have hr : ∀ w ∈ rest, w < 256 := fun w hw => h w (by simp [hw])
      simp [btoaChars, b64Body, List.filter_cons,
        stdToUrl_ne_pad (show x / 4 < 64 by omega),
        stdToUrl_ne_pad (show x % 4 * 16 + y / 16 < 64 by omega),
        stdToUrl_ne_pad (show y % 16 * 4 + z / 64 < 64 by omega),
        stdToUrl_ne_pad (show z % 64 < 64 by omega), ih hr]

/-- The decoder's substitution undoes the encoder's on the body. -/
theorem b64Body_url_roundtrip (b : List Nat) (h : ∀ x ∈ b, x < 256) :
    ((b64Body b).map stdToUrlChar).map urlToStdChar = b64Body b := by
  induction b using btoaChars.induct with
  | case1 => rfl
  | case2 x =>
      have hx : x < 256 := h x (by simp)
      simp [b64Body, urlStd_char_roundtrip (show x / 4 < 64 by omega),
        urlStd_char_roundtrip (show x % 4 * 16 < 64 by omega)]
  | case3 x y =>
      have hx : x < 256 := h x (by simp)
      have hy : y < 256 := h y (by simp)
      simp [b64Body, urlStd_char_roundtrip (show x / 4 < 64 by omega),
        urlStd_char_roundtrip (show x % 4 * 16 + y / 16 < 64 by omega),
        urlStd_char_roundtrip (show y % 16 * 4 < 64 by omega)]
  | case4 x y z rest ih =>
      have hx : x < 256 := h x (by simp)
      have hy : y < 256 := h y (by simp)
      have hz : z < 256 := h z (by simp)
      have hr : ∀ w ∈ rest, w < 256 := fun w hw => h w (by simp [hw])
      simp [b64Body, urlStd_char_roundtrip (show x / 4 < 64 by omega),
        urlStd_char_roundtrip (show x % 4 * 16 + y / 16 < 64 by omega),
        urlStd_char_roundtrip (show y % 16 * 4 + z / 64 < 64 by omega),
        urlStd_char_roundtrip (show z % 64 < 64 by omega), ih hr]

/-- Body and padding lengths sum to a multiple of four. -/
theorem b64Body_pad_length (b : List Nat) :
    ((b64Body b).length + (padOf b).length) % 4 = 0 := by
  have hl := btoaChars_length b
  rw [btoaChars_split b, List.length_append] at hl
  exact hl

/-- The decoder's re-padding recreates exactly the stripped padding. -/
theorem replicate_pad (b : List Nat) :
    List.replicate ((4 - (b64Body b).length % 4) % 4) '=' = padOf b := by
  have hl := b64Body_pad_length b
  rcases padOf_cases b with h | h | h <;> rw [h] <;> rw [h] at hl <;> simp at hl
  · have he : (4 - (b64Body b).length % 4) % 4 = 0 := by omega
    rw [he]; rfl
  · have he : (4 - (b64Body b).length % 4) % 4 = 1 := by omega
    rw [he]; rfl
  · have he : (4 - (b64Body b).length % 4) % 4 = 2 := by omega
    rw [he]; rfl

/-- C3: for every byte sequence, including the empty one and those whose
length is not a multiple of 3, `base64UrlToArrayBuffer` inverts
`arrayBufferToBase64Url`. -/
theorem base64UrlToArrayBuffer_arrayBufferToBase64Url (b : List Nat)
    (h : ∀ x ∈ b, x < 256) :
    base64UrlToArrayBuffer (arrayBufferToBase64Url b) = some b := by
  unfold base64UrlToArrayBuffer
  have hd : (arrayBufferToBase64Url b).data
      = ((btoaChars b).map stdToUrlChar).filter (fun c => c != '=') := rfl
  rw [hd, btoaChars_map_filter b h, b64Body_url_roundtrip b h,
    replicate_pad b, ← btoaChars_split b]
  exact atobChars_btoaChars b h

/-- C3 witness: the round trip at the concrete buffer `[0, 251, 17, 255]`,
whose length is not a multiple of three. -/
theorem base64Url_roundtrip_witness :
    (∀ x ∈ [0, 251, 17, 255], x < 256)
    ∧ base64UrlToArrayBuffer (arrayBufferToBase64Url [0, 251, 17, 255])
        = some [0, 251, 17, 255] :=
  ⟨by decide, base64UrlToArrayBuffer_arrayBufferToBase64Url [0, 251, 17, 255] (by decide)⟩

/-- C4 counterexample: the input `"+w"` contains `+`, which is outside the
URL-safe alphabet, yet the decoder accepts it and returns bytes. -/
theorem base64UrlToArrayBuffer_accepts_plus :
    base64UrlToArrayBuffer "+w" = some [251] := by rfl

/-- The decoder's substitution absorbs the encoder's on every character. -/
theorem urlToStd_stdToUrl (c : Char) : urlToStdChar (stdToUrlChar c) = urlToStdChar c := by
  by_cases h1 : c = '+'
  · subst h1; rfl
  by_cases h2 : c = '/'
  · subst h2; rfl
  have hc : stdToUrlChar c = c := by
    unfold stdToUrlChar
    rw [if_neg h1, if_neg h2]
  rw [hc]

/-- C4 (amended): `base64UrlToArrayBuffer` does not reject `+` (or `/`);
it treats them exactly like the URL-safe characters `-` and `_`: decoding
is invariant under the standard-to-URL-safe character substitution, and a
string containing `+` decodes as its `-` counterpart does. -/
theorem base64UrlToArrayBuffer_std_chars (s : String) :
    base64UrlToArrayBuffer ⟨s.data.map stdToUrlChar⟩ = base64UrlToArrayBuffer s := by
  unfold base64UrlToArrayBuffer
  have hd : (String.mk (s.data.map stdToUrlChar)).data.map urlToStdChar
      = s.data.map urlToStdChar := by
    show (s.data.map stdToUrlChar).map urlToStdChar = _
    rw [List.map_map]
    exact List.map_congr_left (fun a _ => urlToStd_stdToUrl a)
  rw [hd]

/-- Relying-party info block of the wire options. -/
structure RpEntity where
  name : String
  id : String
deriving DecidableEq

/-- User block of the wire registration options (id is text-encoded). -/
structure UserEntity where
  id : String
  name : String
  displayName : String
deriving DecidableEq

/-- One accepted public-key algorithm (COSE identifier). -/
structure PubKeyCredParam where
  type : String
  alg : Int
deriving DecidableEq

/-- Authenticator-selection criteria, all fields optional on the wire. -/
structure AuthenticatorSelection where
  authenticatorAttachment : Option String
  residentKey : Option String
  requireResidentKey : Option Bool
  userVerification : Option String
deriving DecidableEq

/-- A credential descriptor with a text-encoded id. -/
structure CredDescriptor where
  type : String
  id : String
  transports : Option (List String)
deriving DecidableEq

/-- Wire registration options (`RegistrationOptionsResponse`). -/
structure RegistrationOptionsResponse where
  challenge : String
  rp : RpEntity
  user : UserEntity
  pubKeyCredParams : List PubKeyCredParam
  timeout : Option Nat
  attestation : Option String
  authenticatorSelection : Option AuthenticatorSelection
  excludeCredentials : Option (List CredDescriptor)
deriving DecidableEq

/-- Wire authentication options (`AuthenticationOptionsResponse`). -/
structure AuthenticationOptionsResponse where
  challenge : String
  timeout : Option Nat
  rpId : Option String
  userVerification : Option String
  allowCredentials : Option (List CredDescriptor)
deriving DecidableEq

/-- Registration ceremony response payload (text-encoded fields). -/
structure RegistrationResponsePayload where
  clientDataJSON : String
  attestationObject : String
deriving DecidableEq

/-- Wire registration credential (`RegistrationCredential`). -/
structure RegistrationCredential where
  id : String
  rawId : String
  response : RegistrationResponsePayload
  type : String
  authenticatorAttachment : Option String
deriving DecidableEq

/-- Authentication ceremony response payload (text-encoded fields). -/
structure AuthenticationResponsePayload where
  clientDataJSON : String
  authenticatorData : String
  signature : String
  userHandle : Option String
deriving DecidableEq

/-- Wire authentication credential (`AuthenticationCredential`). -/
structure AuthenticationCredential where
  id : String
  rawId : String
  response : AuthenticationResponsePayload
  type : String
  authenticatorAttachment : Option String
deriving DecidableEq

/-- `RegistrationResult` returned by register-finish. -/
structure RegistrationResult where
  success : Bool
  credentialId : Option String
  message : Option String
deriving DecidableEq

/-- `AuthenticationResult` returned by auth-finish. -/
structure AuthenticationResult where
  success : Bool
  username : Option String
  message : Option String
deriving DecidableEq

/-- `RegisterStartRequest` (username required, displayName optional). -/
structure RegisterStartRequest where
  username : String
  displayName : Option String
deriving DecidableEq

/-- `AuthStartRequest` (username optional). -/
structure AuthStartRequest where
  username : Option String
deriving DecidableEq

/-- `StoredCredential` record of the mock store. -/
structure StoredCredential where
  credentialId : String
  publicKey : String
  username : String
  displayName : String
  createdAt : Int
deriving DecidableEq

/-- One entry of `challengeStorage`. -/
structure ChallengeEntry where
  challenge : String
  username : String
  timestamp : Int
deriving DecidableEq

/-- The mock server's two keyed collections, as insertion-ordered
association lists (the JavaScript `Map`s). -/
structure MockState where
  mockStorage : List (String × StoredCredential)
  challengeStorage : List (String × ChallengeEntry)
deriving DecidableEq

/-- `Map.get`: first (only) binding of the key. -/
def mapGet {α : Type} : List (String × α) → String → Option α
  | [], _ => none
  | (k', v') :: rest, k => if k' = k then some v' else mapGet rest k

/-- `Map.set`: replace in place if present, else append. -/
def mapSet {α : Type} : List (String × α) → String → α → List (String × α)
  | [], k, v => [(k, v)]
  | (k', v') :: rest, k, v =>
      if k' = k then (k, v) :: rest else (k', v') :: mapSet rest k v

/-- JavaScript `x || d` for an optional string `x` (empty string is falsy). -/
def jsOr : Option String → String → String
  | some s, d => if s = "" then d else s
  | none, d => d

theorem mapGet_mapSet_self {α : Type} (m : List (String × α)) (k : String) (v : α) :
    mapGet (mapSet m k v) k = some v := by
  induction m with
  | nil => simp [mapSet, mapGet]
  | cons p rest ih =>
      obtain ⟨k', v'⟩ := p
      by_cases h : k' = k
      · simp [mapSet, h, mapGet]
      · simp [mapSet, h, mapGet, ih]

theorem mapGet_mapSet_ne {α : Type} (m : List (String × α)) (k k₂ : String) (v : α)
    (h : k₂ ≠ k) :
    mapGet (mapSet m k v) k₂ = mapGet m k₂ := by
  have hne : ¬ k = k₂ := fun hh => h hh.symm
  induction m with
  | nil => simp [mapSet, mapGet, hne]
  | cons p rest ih =>
      obtain ⟨k', v'⟩ := p
      by_cases hk : k' = k
      · subst hk
        simp [mapSet, mapGet, hne]
      · by_cases h2 : k' = k₂ <;> simp [mapSet, hk, mapGet, h2, hne, h, ih]

/-- User block after decoding (`user.id` as raw bytes). -/
structure CreationUserEntity where
  id : List Nat
  name : String
  displayName : String
deriving DecidableEq

/-- Credential descriptor after decoding (`id` as raw bytes). -/
structure DecodedDescriptor where
  type : String
  id : List Nat
  transports : Option (List String)
deriving DecidableEq

/-- Platform `PublicKeyCredentialCreationOptions` as built by the adapter. -/
structure CreationOptions where
  challenge : List Nat
  rp : RpEntity
  user : CreationUserEntity
  pubKeyCredParams : List PubKeyCredParam
  timeout : Option Nat
  attestation : String
  authenticatorSelection : Option AuthenticatorSelection
  excludeCredentials : Option (List DecodedDescriptor)
deriving DecidableEq

/-- Decode each `excludeCredentials[].id`, keeping type and transports. -/
def decodeDescriptors : List CredDescriptor → Option (List DecodedDescriptor)
  | [] => some []
  | c :: rest =>
      match base64UrlToArrayBuffer c.id, decodeDescriptors rest with
      | some bs, some ds => some (⟨c.type, bs, c.transports⟩ :: ds)
      | _, _ => none

/-- `convertRegistrationOptions` (webauthn service): decode `challenge`,
`user.id` and the exclude-list ids; default `attestation` with `|| 'none'`;
copy `authenticatorSelection` and `excludeCredentials` only when present;
pass everything else through. -/
def convertRegistrationOptions (w : RegistrationOptionsResponse) :
    Option CreationOptions :=
  match base64UrlToArrayBuffer w.challenge, base64UrlToArrayBuffer w.user.id with
  | some ch, some uid =>
      match w.excludeCredentials with
      | none =>
          some { challenge := ch, rp := w.rp,
                 user := ⟨uid, w.user.name, w.user.displayName⟩,
                 pubKeyCredParams := w.pubKeyCredParams, timeout := w.timeout,
                 attestation := jsOr w.attestation "none",
                 authenticatorSelection := w.authenticatorSelection,
                 excludeCredentials := none }
      | some l =>
          match decodeDescriptors l with
          | some ds =>
              some { challenge := ch, rp := w.rp,
                     user := ⟨uid, w.user.name, w.user.displayName⟩,
                     pubKeyCredParams := w.pubKeyCredParams, timeout := w.timeout,
                     attestation := jsOr w.attestation "none",
                     authenticatorSelection := w.authenticatorSelection,
                     excludeCredentials := some ds }
          | none => none
  | _, _ => none

/-- Pointwise description of a successful `decodeDescriptors`. -/
theorem decodeDescriptors_spec :
    ∀ (l : List CredDescriptor) (ds : List DecodedDescriptor),
      decodeDescriptors l = some ds →
      ds.length = l.length ∧
      ∀ i (h1 : i < l.length) (h2 : i < ds.length),
        (ds.get ⟨i, h2⟩).type = (l.get ⟨i, h1⟩).type
        ∧ base64UrlToArrayBuffer (l.get ⟨i, h1⟩).id = some (ds.get ⟨i, h2⟩).id
        ∧ (ds.get ⟨i, h2⟩).transports = (l.get ⟨i, h1⟩).transports := by
  intro l
  induction l with
  | nil =>
      intro ds h
      simp [decodeDescriptors] at h
      subst h
      exact ⟨rfl, fun i h1 h2 => absurd h1 (by simp)⟩
  | cons c rest ih =>
      intro ds h
      unfold decodeDescriptors at h
      cases hb : base64UrlToArrayBuffer c.id <;> rw [hb] at h
      · simp at h
      cases hr : decodeDescriptors rest <;> rw [hr] at h
      · simp at h
      · rename_i bs ds'
        simp only [Option.some.injEq] at h
        subst h
        obtain ⟨hlen, hpt⟩ := ih ds' hr
        refine ⟨by simp [hlen], ?_⟩
        intro i h1 h2
        cases i with
        | zero => exact ⟨rfl, hb, rfl⟩
        | succ j =>
            simp only [List.get_cons_succ]
            exact hpt j (by simpa using h1) (by simpa using h2)

/-- C5: `convertRegistrationOptions` returns options whose `challenge` and
`user.id` are byte-for-byte the decodings of the original text fields,
whose `excludeCredentials` entries have their ids decoded (type and
transports kept), whose other fields (relying-party info, algorithm list,
timeout, authenticator-selection criteria, present non-empty attestation
preference) are passed through unchanged, and whose attestation preference
is "none" when the input omits it. -/
theorem convertRegistrationOptions_spec (w : RegistrationOptionsResponse)
    (out : CreationOptions) (h : convertRegistrationOptions w = some out) :
    base64UrlToArrayBuffer w.challenge = some out.challenge
    ∧ base64UrlToArrayBuffer w.user.id = some out.user.id
    ∧ out.rp = w.rp
    ∧ out.user.name = w.user.name
    ∧ out.user.displayName = w.user.displayName
    ∧ out.pubKeyCredParams = w.pubKeyCredParams
    ∧ out.timeout = w.timeout
    ∧ out.authenticatorSelection = w.authenticatorSelection
    ∧ (w.attestation = none → out.attestation = "none")
    ∧ (∀ a, w.attestation = some a → a ≠ "" → out.attestation = a)
    ∧ (w.excludeCredentials = none → out.excludeCredentials = none)
    ∧ (∀ l, w.excludeCredentials = some l →
        ∃ ds, out.excludeCredentials = some ds ∧ ds.length = l.length ∧
          ∀ i (h1 : i < l.length) (h2 : i < ds.length),
            (ds.get ⟨i, h2⟩).type = (l.get ⟨i, h1⟩).type
            ∧ base64UrlToArrayBuffer (l.get ⟨i, h1⟩).id = some (ds.get ⟨i, h2⟩).id
            ∧ (ds.get ⟨i, h2⟩).transports = (l.get ⟨i, h1⟩).transports) := by
  unfold convertRegistrationOptions at h
  cases hc : base64UrlToArrayBuffer w.challenge <;> rw [hc] at h
  · simp at h
  cases hu : base64UrlToArrayBuffer w.user.id <;> rw [hu] at h
  · dsimp only at h
    simp at h
  cases hx : w.excludeCredentials <;> rw [hx] at h <;> dsimp only at h
  · simp only [Option.some.injEq] at h
    subst h
    refine ⟨rfl, rfl, rfl, rfl, rfl, rfl, rfl, rfl, ?_, ?_, fun _ => rfl, ?_⟩
    · intro ha; rw [ha]; rfl
    · intro a ha hne
      rw [ha]
      simp [jsOr, hne]
    · intro l hl
      exact Option.noConfusion hl
  · rename_i l
    cases hd : decodeDescriptors l <;> rw [hd] at h <;> dsimp only at h
    · simp at h
    · rename_i ds
      simp only [Option.some.injEq] at h
      subst h
      obtain ⟨hlen, hpt⟩ := decodeDescriptors_spec l ds hd
      refine ⟨rfl, rfl, rfl, rfl, rfl, rfl, rfl, rfl, ?_, ?_, ?_, ?_⟩
      · intro ha; rw [ha]; rfl
      · intro a ha hne
        rw [ha]
        simp [jsOr, hne]
      · intro hnone
        exact Option.noConfusion hnone
      · intro l' hl'
        have he : l = l' := Option.some.inj hl'
        subst he
        exact ⟨ds, rfl, hlen, hpt⟩

/-- C5 concrete wire options used by the witness. -/
def c5Wire : RegistrationOptionsResponse :=
  ⟨"AA", ⟨"rp", "example.com"⟩, ⟨"AQ", "alice", "Alice"⟩,
    [⟨"public-key", -7⟩, ⟨"public-key", -257⟩], some 60000, none, none,
    some [⟨"public-key", "AAE", none⟩]⟩

/-- C5 expected platform options for `c5Wire`. -/
def c5Out : CreationOptions :=
  ⟨[0], ⟨"rp", "example.com"⟩, ⟨[1], "alice", "Alice"⟩,
    [⟨"public-key", -7⟩, ⟨"public-key", -257⟩], some 60000, "none", none,
    some [⟨"public-key", [0, 1], none⟩]⟩

/-- C5 witness: the conversion evaluated at a concrete wire value. -/
theorem convertRegistrationOptions_spec_witness :
    convertRegistrationOptions c5Wire = some c5Out
    ∧ base64UrlToArrayBuffer c5Wire.challenge = some c5Out.challenge :=
  ⟨rfl, (convertRegistrationOptions_spec c5Wire c5Out rfl).1⟩

/-- The value handed to the ceremony error translator: a `DOMException`
with its name and message, another `Error` with its message, or any
non-`Error` value. -/
inductive JsError where
  | domException (name : String) (message : String)
  | jsError (message : String)
  | other

/-- `getWebAuthnErrorMessage` (webauthn service): switch on the
`DOMException` name over five cases with a default, then the
`instanceof Error` fallback, then the generic unknown-error message. -/
def getWebAuthnErrorMessage : JsError → String
  | .domException n m =>
      if n = "NotAllowedError" then "사용자가 인증을 취소했거나 시간이 초과되었습니다."
      else if n = "InvalidStateError" then "이미 등록된 인증기가 있습니다."
      else if n = "NotSupportedError" then "지원되지 않는 인증 방식입니다."
      else if n = "SecurityError" then "보안 오류가 발생했습니다. HTTPS 연결을 확인하세요."
      else if n = "AbortError" then "인증이 중단되었습니다."
      else "인증 오류: " ++ m
  | .jsError m => m
  | .other => "알 수 없는 오류가 발생했습니다."

/-- C8 counterexample: a not-found `DOMException` has no dedicated stable
message (the output varies with the platform message), and an unrecognized
`Error` shape does not map to the generic unknown-error message. -/
theorem getWebAuthnErrorMessage_c8_counterexample :
    getWebAuthnErrorMessage (.domException "NotFoundError" "a")
      ≠ getWebAuthnErrorMessage (.domException "NotFoundError" "b")
    ∧ getWebAuthnErrorMessage (.jsError "boom") ≠ "알 수 없는 오류가 발생했습니다." := by
  refine ⟨?_, ?_⟩ <;> decide

/-- C8 (amended): the translator always returns a message string; the five
recognized `DOMException` codes (cancellation/timeout, invalid-state,
unsupported, security, abort) each map to their own fixed message; every
other `DOMException` — not-found included — maps to a message prefixed to
the platform text; a plain `Error` maps to its own message; and only
non-`Error` values map to the generic unknown-error message. -/
theorem getWebAuthnErrorMessage_spec :
    (∀ m, getWebAuthnErrorMessage (.domException "NotAllowedError" m)
        = "사용자가 인증을 취소했거나 시간이 초과되었습니다.")
    ∧ (∀ m, getWebAuthnErrorMessage (.domException "InvalidStateError" m)
        = "이미 등록된 인증기가 있습니다.")
    ∧ (∀ m, getWebAuthnErrorMessage (.domException "NotSupportedError" m)
        = "지원되지 않는 인증 방식입니다.")
    ∧ (∀ m, getWebAuthnErrorMessage (.domException "SecurityError" m)
        = "보안 오류가 발생했습니다. HTTPS 연결을 확인하세요.")
    ∧ (∀ m, getWebAuthnErrorMessage (.domException "AbortError" m)
        = "인증이 중단되었습니다.")
    ∧ (∀ n m, n ∉ (["NotAllowedError", "InvalidStateError", "NotSupportedError",
          "SecurityError", "AbortError"] : List String) →
        getWebAuthnErrorMessage (.domException n m) = "인증 오류: " ++ m)
    ∧ (∀ m, getWebAuthnErrorMessage (.jsError m) = m)
    ∧ getWebAuthnErrorMessage .other = "알 수 없는 오류가 발생했습니다." := by
  refine ⟨fun m => rfl, fun m => rfl, fun m => rfl, fun m => rfl, fun m => rfl,
    ?_, fun m => rfl, rfl⟩
  intro n m hn
  simp only [List.mem_cons, List.not_mem_nil, or_false, not_or] at hn
  obtain ⟨h1, h2, h3, h4, h5⟩ := hn
  simp only [getWebAuthnErrorMessage]
  rw [if_neg h1, if_neg h2, if_neg h3, if_neg h4, if_neg h5]

/-- C8 witness: a not-found `DOMException` goes through the default branch. -/
theorem getWebAuthnErrorMessage_spec_witness :
    getWebAuthnErrorMessage (.domException "NotFoundError" "no credential")
      = "인증 오류: no credential" :=
  getWebAuthnErrorMessage_spec.2.2.2.2.2.1 "NotFoundError" "no credential" (by decide)

/-- Challenge validity window of the mock server: 5 minutes in ms. -/
def challengeExpiryMs : Int := 5 * 60 * 1000

/-- `mockRegisterStart` (src/services/mockServer.ts): record the fresh
challenge, collect the username's stored credential ids as
`excludeCredentials` (absent when empty), and build the options.  The
generated random challenge and user id, the current time and the page
hostname enter as parameters. -/
def mockRegisterStart (st : MockState) (req : RegisterStartRequest)
    (challenge userId : String) (now : Int) (hostname : String) :
    RegistrationOptionsResponse × MockState :=
  let st' : MockState :=
    { st with challengeStorage :=
        mapSet st.challengeStorage challenge ⟨challenge, req.username, now⟩ }
  let existing : List CredDescriptor :=
    ((st.mockStorage.map (fun p => p.2)).filter
        (fun c => c.username == req.username)).map
      (fun c => ⟨"public-key", c.credentialId, none⟩)
  ({ challenge := challenge,
     rp := ⟨"FIDO2 Test Server (Mock)", hostname⟩,
     user := ⟨userId, req.username, jsOr req.displayName req.username⟩,
     pubKeyCredParams := [⟨"public-key", -7⟩, ⟨"public-key", -257⟩],
     timeout := some 60000,
     attestation := some "none",
     authenticatorSelection := some ⟨some "platform", some "preferred", none, some "preferred"⟩,
     excludeCredentials := if 0 < existing.length then some existing else none },
   st')

/-- `mockRegisterFinish` (src/services/mockServer.ts): store the raw
attestation payload under the presented credential id with the hardcoded
placeholder identity, and report success.  The challenge store is never
consulted. -/
def mockRegisterFinish (st : MockState) (cred : RegistrationCredential)
    (now : Int) : RegistrationResult × MockState :=
  let stored : StoredCredential :=
    ⟨cred.id, cred.response.attestationObject, "mock-user", "Mock User", now⟩
  ({ success := true, credentialId := some cred.id,
     message := some "Passkey가 성공적으로 등록되었습니다. (Mock)" },
   { st with mockStorage := mapSet st.mockStorage cred.id stored })

/-- `mockAuthStart` (src/services/mockServer.ts): record the fresh
challenge (empty username when absent), and collect the username's stored
credential ids as `allowCredentials` when the username is truthy and has
at least one credential. -/
def mockAuthStart (st : MockState) (req : AuthStartRequest)
    (challenge : String) (now : Int) (hostname : String) :
    AuthenticationOptionsResponse × MockState :=
  let st' : MockState :=
    { st with challengeStorage :=
        mapSet st.challengeStorage challenge ⟨challenge, jsOr req.username "", now⟩ }
  let allow : Option (List CredDescriptor) :=
    match req.username with
    | some u =>
        if u = "" then none
        else
          let userCreds :=
            (st.mockStorage.map (fun p => p.2)).filter (fun c => c.username == u)
          if 0 < userCreds.length then
            some (userCreds.map (fun c => ⟨"public-key", c.credentialId, none⟩))
          else none
    | none => none
  ({ challenge := challenge, timeout := some 60000, rpId := some hostname,
     userVerification := some "preferred", allowCredentials := allow },
   st')

/-- `mockAuthFinish` (src/services/mockServer.ts): succeed with the stored
owner when the credential id is known, and still succeed with the
placeholder "discovered-user" when it is not.  State is unchanged and the
challenge store is never consulted. -/
def mockAuthFinish (st : MockState) (cred : AuthenticationCredential) :
    AuthenticationResult :=
  match mapGet st.mockStorage cred.id with
  | some sc =>
      { success := true, username := some sc.username,
        message := some "인증이 성공적으로 완료되었습니다. (Mock)" }
  | none =>
      { success := true, username := some "discovered-user",
        message := some "인증이 성공적으로 완료되었습니다. (Mock - Discoverable)" }

/-- `clearMockData` (src/services/mockServer.ts): empty both collections. -/
def clearMockData (_ : MockState) : MockState :=
  { mockStorage := [], challengeStorage := [] }

/-- `cleanupExpiredChallenges` (src/services/mockServer.ts): delete every
challenge entry strictly older than the 5-minute window. -/
def cleanupExpiredChallenges (st : MockState) (now : Int) : MockState :=
  { st with challengeStorage :=
      (st.challengeStorage.filter
        (fun p => !decide (now - p.2.timestamp > challengeExpiryMs))) }

/-- C1 (code-bug evidence): the finish operations never consult the
challenge store.  For every state — including any in which the presented
challenge was never issued, was already consumed, or expired more than
5 minutes ago — both `mockRegisterFinish` and `mockAuthFinish` report
success instead of failing. -/
theorem mock_finish_ignores_challenges (st : MockState)
    (cred : RegistrationCredential) (acred : AuthenticationCredential) (now : Int) :
    (mockRegisterFinish st cred now).1.success = true
    ∧ (mockAuthFinish st acred).success = true := by
  refine ⟨rfl, ?_⟩
  unfold mockAuthFinish
  cases mapGet st.mockStorage acred.id <;> rfl

/-- C2 scenario state: `mockRegisterStart` for "alice" on the empty store. -/
def c2Start1 : RegistrationOptionsResponse × MockState :=
  mockRegisterStart ⟨[], []⟩ ⟨"alice", none⟩ "ch1" "uid1" 0 "localhost"

/-- C2 scenario state: `mockRegisterFinish` of the simulated credential. -/
def c2Finish : RegistrationResult × MockState :=
  mockRegisterFinish c2Start1.2 ⟨"cred-1", "cred-1", ⟨"cdj", "payload"⟩, "public-key", none⟩ 1000

/-- C2 scenario state: the subsequent `mockRegisterStart` for "alice". -/
def c2Start2 : RegistrationOptionsResponse × MockState :=
  mockRegisterStart c2Finish.2 ⟨"alice", none⟩ "ch2" "uid2" 2000 "localhost"

/-- C2 (code-bug evidence): registering "alice" goes through the first two
scenario steps as specified (options carry `user.name = "alice"`, finish
reports success with the credential id), but the credential is stored under
the hardcoded placeholder "mock-user", so the subsequent `registerStart`
for "alice" carries no `excludeCredentials` at all. -/
theorem alice_rereg_missing_exclude :
    c2Start1.1.user.name = "alice"
    ∧ c2Finish.1.success = true
    ∧ c2Finish.1.credentialId = some "cred-1"
    ∧ (mapGet c2Finish.2.mockStorage "cred-1").map (fun sc => sc.username)
        = some "mock-user"
    ∧ c2Start2.1.excludeCredentials = none := by
  refine ⟨rfl, rfl, rfl, rfl, ?_⟩
  decide

/-- C6: `mockAuthFinish` succeeds with the stored owner's username when a
stored credential matches the presented id, and still returns a success
tagged with the placeholder "discovered-user" — not a failure — when none
matches, in particular after `clearMockData` emptied the store. -/
theorem mockAuthFinish_spec (st : MockState) (cred : AuthenticationCredential) :
    (mockAuthFinish st cred).success = true
    ∧ (∀ sc, mapGet st.mockStorage cred.id = some sc →
        (mockAuthFinish st cred).username = some sc.username)
    ∧ (mapGet st.mockStorage cred.id = none →
        (mockAuthFinish st cred).username = some "discovered-user")
    ∧ (mockAuthFinish (clearMockData st) cred).username = some "discovered-user" := by
  refine ⟨?_, ?_, ?_, rfl⟩
  · unfold mockAuthFinish
    cases mapGet st.mockStorage cred.id <;> rfl
  · intro sc h
    unfold mockAuthFinish
    rw [h]
  · intro h
    unfold mockAuthFinish
    rw [h]

/-- C6 witness: a matching stored credential yields its owner's username. -/
theorem mockAuthFinish_spec_witness :
    (mockAuthFinish ⟨[("cred-9", ⟨"cred-9", "pk", "alice", "Alice", 0⟩)], []⟩
        ⟨"cred-9", "cred-9", ⟨"c", "a", "s", none⟩, "public-key", none⟩).username
      = some "alice" :=
  (mockAuthFinish_spec _ _).2.1 ⟨"cred-9", "pk", "alice", "Alice", 0⟩ rfl

/-- C7: `mockAuthStart` leaves `allowCredentials` absent when the username
is omitted (or empty, which JavaScript treats as falsy), and also when the
given username has no stored credentials — the call still succeeding — and
otherwise returns exactly the user's stored credential identifiers. -/
theorem mockAuthStart_spec (st : MockState) (req : AuthStartRequest)
    (ch : String) (now : Int) (host : String) :
    (req.username = none →
      (mockAuthStart st req ch now host).1.allowCredentials = none)
    ∧ (req.username = some "" →
      (mockAuthStart st req ch now host).1.allowCredentials = none)
    ∧ (∀ u, req.username = some u →
        (st.mockStorage.map (fun p => p.2)).filter (fun c => c.username == u) = [] →
        (mockAuthStart st req ch now host).1.allowCredentials = none)
    ∧ (∀ u, req.username = some u → u ≠ "" →
        (st.mockStorage.map (fun p => p.2)).filter (fun c => c.username == u) ≠ [] →
        ((mockAuthStart st req ch now host).1.allowCredentials).map
            (fun l => l.map (fun d => d.id))
          = some (((st.mockStorage.map (fun p => p.2)).filter
              (fun c => c.username == u)).map (fun c => c.credentialId))) := by
  refine ⟨?_, ?_, ?_, ?_⟩
  · intro h
    simp [mockAuthStart, h]
  · intro h
    simp [mockAuthStart, h]
  · intro u hu hf
    by_cases he : u = "" <;> simp [mockAuthStart, hu, he, hf]
  · intro u hu hne hf
    have hlen : 0 < ((st.mockStorage.map (fun p => p.2)).filter
        (fun c => c.username == u)).length := List.length_pos.mpr hf
    simp [mockAuthStart, hu, hne, hlen, List.map_map, Function.comp]

/-- C7 witness: a username with one stored credential gets exactly its id. -/
theorem mockAuthStart_spec_witness :
    ((mockAuthStart ⟨[("cred-2", ⟨"cred-2", "pk", "bob", "Bob", 0⟩)], []⟩ ⟨some "bob"⟩
        "ch" 0 "host").1.allowCredentials).map (fun l => l.map (fun d => d.id))
      = some ["cred-2"] :=
  (mockAuthStart_spec _ _ _ _ _).2.2.2 "bob" rfl (by decide) (by decide)

/-- C9: `cleanupExpiredChallenges` keeps exactly the challenges whose age
is within the 5-minute window, leaves the credential store unchanged, and
running it a second time at the same instant changes nothing. -/
theorem cleanupExpiredChallenges_spec (st : MockState) (now : Int) :
    (cleanupExpiredChallenges st now).mockStorage = st.mockStorage
    ∧ (∀ e, e ∈ (cleanupExpiredChallenges st now).challengeStorage ↔
        (e ∈ st.challengeStorage ∧ now - e.2.timestamp ≤ challengeExpiryMs))
    ∧ cleanupExpiredChallenges (cleanupExpiredChallenges st now) now
        = cleanupExpiredChallenges st now := by
  refine ⟨rfl, ?_, ?_⟩
  · intro e
    simp [cleanupExpiredChallenges, List.mem_filter, not_lt]
  · simp [cleanupExpiredChallenges, List.filter_filter]

/-- C10 (implicit): `mockRegisterFinish` on an already-registered
credential identifier still reports success and silently replaces the
previously stored record — owner, public-key material, display name and
creation timestamp — leaving every other entry unchanged
(last-writer-wins, never an error). -/
theorem mockRegisterFinish_overwrites (st : MockState)
    (cred : RegistrationCredential) (now : Int) (old : StoredCredential)
    (h : mapGet st.mockStorage cred.id = some old) :
    (mockRegisterFinish st cred now).1.success = true
    ∧ (mockRegisterFinish st cred now).1.credentialId = some cred.id
    ∧ mapGet (mockRegisterFinish st cred now).2.mockStorage cred.id
        = some ⟨cred.id, cred.response.attestationObject, "mock-user", "Mock User", now⟩
    ∧ (∀ k, k ≠ cred.id →
        mapGet (mockRegisterFinish st cred now).2.mockStorage k
          = mapGet st.mockStorage k) := by
  refine ⟨rfl, rfl, ?_, ?_⟩
  · exact mapGet_mapSet_self st.mockStorage cred.id _
  · intro k hk
    exact mapGet_mapSet_ne st.mockStorage cred.id k _ hk

/-- C10 witness: overwriting a pre-existing record for "cred-7". -/
theorem mockRegisterFinish_overwrites_witness :
    mapGet (mockRegisterFinish ⟨[("cred-7", ⟨"cred-7", "old-pk", "olduser", "Old", 0⟩)], []⟩
        ⟨"cred-7", "cred-7", ⟨"cdj", "new-pk"⟩, "public-key", none⟩ 99).2.mockStorage "cred-7"
      = some ⟨"cred-7", "new-pk", "mock-user", "Mock User", 99⟩ :=
  (mockRegisterFinish_overwrites
    ⟨[("cred-7", ⟨"cred-7", "old-pk", "olduser", "Old", 0⟩)], []⟩
    ⟨"cred-7", "cred-7", ⟨"cdj", "new-pk"⟩, "public-key", none⟩ 99
    ⟨"cred-7", "old-pk", "olduser", "Old", 0⟩ rfl).2.2.1
